import Mathlib

/-!
Shallow embedding of the checkout / inventory core of the E-Commerce-API
repository (TypeScript + Prisma).  The persistent store (Prisma/PostgreSQL
tables) is modelled as lists of rows; every controller of
`src/controllers/payment.controller.ts` and the cart controller in the
cart routes file becomes a pure Lean function from a request and a `DB`
state to the new `DB` state and a result value.  Monetary values
(Prisma `Decimal` columns, converted with `Number(...)` in the code) are
modelled as exact rationals `ℚ`; fields of the rows that no claim touches
(timestamps, order numbers, notes, images, ...) are omitted.
-/

namespace ECom

/-- A row of the `Product` table: id, display name, unit price (`Decimal`
column, modelled as `ℚ`), stock count (`Int` column, signed). -/
structure Product where
  id : Nat
  name : String
  price : Rat
  stock : Int
deriving Repr, DecidableEq

/-- A row of the `Cart` table (one per user). -/
structure Cart where
  id : Nat
  userId : Nat
deriving Repr, DecidableEq

/-- A row of the `CartItem` table; `(cartId, productId)` is unique in the
schema (the code looks items up via the compound key `cartId_productId`). -/
structure CartItem where
  id : Nat
  cartId : Nat
  productId : Nat
  quantity : Nat
deriving Repr, DecidableEq

/-- A row of the `Address` table (only the ownership data the checkout
verifies). -/
structure Address where
  id : Nat
  userId : Nat
deriving Repr, DecidableEq

/-- Order status values used by the controllers. -/
inductive OrderStatus
  | PENDING
  | CONFIRMED
  | SHIPPED
  | DELIVERED
  | CANCELLED
  | REFUNDED
deriving Repr, DecidableEq

/-- Payment status values used by the controllers. -/
inductive PaymentStatus
  | UNPAID
  | PAID
  | FAILED
  | REFUNDED
deriving Repr, DecidableEq

/-- A row of the `Order` table (monetary columns are `Decimal`, modelled
as `ℚ`; `stripePaymentId` is nullable). -/
structure Order where
  id : Nat
  userId : Nat
  addressId : Nat
  status : OrderStatus
  paymentStatus : PaymentStatus
  subtotal : Rat
  tax : Rat
  shipping : Rat
  total : Rat
  stripePaymentId : Option String
deriving Repr, DecidableEq

/-- A row of the `OrderItem` table: the immutable order-line snapshot
(`price` and `subtotal` are frozen at checkout). -/
structure OrderItem where
  orderId : Nat
  productId : Nat
  quantity : Nat
  price : Rat
  subtotal : Rat
deriving Repr, DecidableEq

/-- The database state: one list of rows per table, plus the id counters
the store uses to assign fresh primary keys. -/
structure DB where
  products : List Product
  carts : List Cart
  cartItems : List CartItem
  addresses : List Address
  orders : List Order
  orderItems : List OrderItem
  nextOrderId : Nat
  nextCartId : Nat
  nextCartItemId : Nat
deriving Repr, DecidableEq

/-- Models `prisma.product.findUnique({ where: { id } })`. -/
def DB.findProduct (db : DB) (pid : Nat) : Option Product :=
  db.products.find? (fun p => p.id == pid)

/-- Models `prisma.cart.findUnique({ where: { userId } })`. -/
def DB.findCart (db : DB) (u : Nat) : Option Cart :=
  db.carts.find? (fun c => c.userId == u)

/-- The items belonging to one cart (the `items` relation of a cart). -/
def DB.itemsOf (db : DB) (cartId : Nat) : List CartItem :=
  db.cartItems.filter (fun ci => ci.cartId == cartId)

/-- Models `prisma.address.findFirst({ where: { id: addressId, userId } })`. -/
def DB.findAddress (db : DB) (aid u : Nat) : Option Address :=
  db.addresses.find? (fun a => a.id == aid && a.userId == u)

/-- Models `prisma.order.findUnique({ where: { id } })`. -/
def DB.findOrder (db : DB) (oid : Nat) : Option Order :=
  db.orders.find? (fun o => o.id == oid)

/-- Models `prisma.order.findFirst({ where: { id, userId } })`. -/
def DB.findUserOrder (db : DB) (oid u : Nat) : Option Order :=
  db.orders.find? (fun o => o.id == oid && o.userId == u)

/-- The order items belonging to one order
(`prisma.orderItem.findMany({ where: { orderId } })`). -/
def DB.orderItemsOf (db : DB) (oid : Nat) : List OrderItem :=
  db.orderItems.filter (fun oi => oi.orderId == oid)

/-- The stock column of a product, when the product exists. -/
def DB.stockOf (db : DB) (pid : Nat) : Option Int :=
  (db.findProduct pid).map (fun p => p.stock)

/-- Models `tx.product.update({ where: { id: pid }, data: { stock: { increment: q } } })`:
add `q` to the stock of the product with id `pid` (a decrement is an
increment by a negative amount). -/
def incStock (pid : Nat) (q : Int) (ps : List Product) : List Product :=
  ps.map (fun p => if p.id == pid then { p with stock := p.stock + q } else p)

/-- Outcome of `createOrder` (checkout), one constructor per `return`
path of the controller. -/
inductive CheckoutResult
  | missingAddress
  | emptyCart
  | addressNotFound
  | insufficientStock (productName : String) (available : Int)
  | dbError
  | success (orderId : Nat)
deriving Repr, DecidableEq

/-- The `include: { items: { include: { product: true } } }` join on the
cart fetch: pair each cart item with its product row.  `none` models a
broken foreign key, which the store's referential integrity rules out. -/
def joinProducts (db : DB) : List CartItem → Option (List (CartItem × Product))
  | [] => some []
  | it :: rest =>
    match db.findProduct it.productId with
    | none => none
    | some p => (joinProducts db rest).map (fun ls => (it, p) :: ls)

/-- The stock-availability loop of `createOrder`: the first cart line
whose product has `stock < quantity`, reported as
(product name, available stock) — the data in the
`Insufficient stock for NAME. Only N available.` message. -/
def firstShort : List (CartItem × Product) → Option (String × Int)
  | [] => none
  | (it, p) :: rest =>
    if p.stock < (it.quantity : Int) then some (p.name, p.stock) else firstShort rest

/-- Models `cart.items.reduce((sum, item) => sum + Number(item.product.price) * item.quantity, 0)`. -/
def subtotalOf (ls : List (CartItem × Product)) : Rat :=
  ls.foldl (fun sum x => sum + x.2.price * (x.1.quantity : Rat)) 0

/-- Models `const tax = subtotal * 0.1` — note: no rounding is applied. -/
def taxOf (s : Rat) : Rat := s * (1 / 10)

/-- Models `const shipping = subtotal > 100 ? 0 : 10`. -/
def shippingOf (s : Rat) : Rat := if s > 100 then 0 else 10

/-- Models `const total = subtotal + tax + shipping`. -/
def totalOf (s : Rat) : Rat := s + taxOf s + shippingOf s

/-- Modelled from the spec: the `Order` row defaults for `status` and
`paymentStatus`.  `tx.order.create` in `createOrder` sets neither column,
so the values come from the Prisma schema defaults; `schema.prisma` is
not among the provided sources, and the spec states a new order is
created with status `PENDING` and payment status `UNPAID`. -/
def defaultOrderStatus : OrderStatus := OrderStatus.PENDING

/-- Modelled from the spec: the schema default for `paymentStatus`
(see `defaultOrderStatus`). -/
def defaultPaymentStatus : PaymentStatus := PaymentStatus.UNPAID

/-- The order-line snapshot created by `tx.orderItem.create` inside the
checkout transaction: quantity from the cart line, `price` frozen from
the product row read at checkout, `subtotal = price * quantity`. -/
def mkOrderItem (oid : Nat) (x : CartItem × Product) : OrderItem :=
  { orderId := oid
    productId := x.1.productId
    quantity := x.1.quantity
    price := x.2.price
    subtotal := x.2.price * (x.1.quantity : Rat) }

/-- The per-line loop of the checkout transaction: for each cart line,
`tx.orderItem.create` (append the frozen snapshot) and
`tx.product.update` (unconditional `stock: { decrement: quantity }`). -/
def txLoop (oid : Nat) (ls : List (CartItem × Product)) (db : DB) : DB :=
  ls.foldl
    (fun acc x =>
      { acc with
        orderItems := acc.orderItems ++ [mkOrderItem oid x]
        products := incStock x.1.productId (-(x.1.quantity : Int)) acc.products })
    db

/-- The body of `prisma.$transaction` in `createOrder`: create the order
row (with the totals computed before the transaction), run the per-line
loop, then `tx.cartItem.deleteMany({ where: { cartId } })`. -/
def checkoutTx (u aid cartId : Nat) (ls : List (CartItem × Product))
    (sub tax ship tot : Rat) (db : DB) : DB :=
  let oid := db.nextOrderId
  let newOrder : Order :=
    { id := oid
      userId := u
      addressId := aid
      status := defaultOrderStatus
      paymentStatus := defaultPaymentStatus
      subtotal := sub
      tax := tax
      shipping := ship
      total := tot
      stripePaymentId := none }
  let db1 := { db with orders := db.orders ++ [newOrder], nextOrderId := oid + 1 }
  let db2 := txLoop oid ls db1
  { db2 with cartItems := db2.cartItems.filter (fun ci => ci.cartId != cartId) }

/-- Checkout controller `createOrder`.  Checks, in the code's order:
`addressId` present; cart exists and non-empty; address owned by the
caller; every line's stock sufficient.  Then computes the totals and
runs the transaction.  The request's `paymentMethod` and `notes` fields
do not influence any modelled column and are omitted. -/
def createOrder (u : Nat) (addressId : Option Nat) (db : DB) : DB × CheckoutResult :=
  match addressId with
  | none => (db, CheckoutResult.missingAddress)
  | some aid =>
    match db.findCart u with
    | none => (db, CheckoutResult.emptyCart)
    | some cart =>
      match joinProducts db (db.itemsOf cart.id) with
      | none => (db, CheckoutResult.dbError)
      | some ls =>
        if ls.isEmpty then (db, CheckoutResult.emptyCart)
        else
          match db.findAddress aid u with
          | none => (db, CheckoutResult.addressNotFound)
          | some _ =>
            match firstShort ls with
            | some (n, avail) => (db, CheckoutResult.insufficientStock n avail)
            | none =>
              let sub := subtotalOf ls
              (checkoutTx u aid cart.id ls sub (taxOf sub) (shippingOf sub) (totalOf sub) db,
                CheckoutResult.success db.nextOrderId)

/-- Outcome of `cancelOrder`, one constructor per `return` path. -/
inductive CancelResult
  | notFound
  | invalidTransition
  | success
deriving Repr, DecidableEq

/-- The stock-restore loop shared by `cancelOrder` and `refundPayment`:
for every order item, `tx.product.update({ data: { stock: { increment:
item.quantity } } })`. -/
def releaseStock (items : List OrderItem) (ps : List Product) : List Product :=
  items.foldl (fun acc it => incStock it.productId (it.quantity : Int) acc) ps

/-- Order controller `cancelOrder`: the order must exist for this user
(`findFirst({ where: { id, userId } })`, else 404) and have status
`PENDING` (else 400); then, in one transaction, every line's quantity is
added back to its product's stock and the status becomes `CANCELLED`. -/
def cancelOrder (u oid : Nat) (db : DB) : DB × CancelResult :=
  match db.findUserOrder oid u with
  | none => (db, CancelResult.notFound)
  | some o =>
    if o.status != OrderStatus.PENDING then (db, CancelResult.invalidTransition)
    else
      ({ db with
          products := releaseStock (db.orderItemsOf oid) db.products
          orders := db.orders.map (fun x =>
            if x.id == oid then { x with status := OrderStatus.CANCELLED } else x) },
        CancelResult.success)

/-- User roles (README: CUSTOMER, SELLER, ADMIN). -/
inductive Role
  | CUSTOMER
  | SELLER
  | ADMIN
deriving Repr, DecidableEq

/-- Outcome of `refundPayment`, one constructor per `return` path
(`notPaid` is the 400 `Order is not paid` response). -/
inductive RefundResult
  | forbidden
  | notFound
  | notPaid
  | success
deriving Repr, DecidableEq

/-- Payment controller `refundPayment`: only `ADMIN` may call (403);
the order must exist (`findUnique`, 404) and have `paymentStatus = PAID`
(400); then, in one transaction, every line's quantity is restored to
stock and the order becomes `REFUNDED` / `REFUNDED`. -/
def refundPayment (role : Role) (oid : Nat) (db : DB) : DB × RefundResult :=
  if role != Role.ADMIN then (db, RefundResult.forbidden)
  else
    match db.findOrder oid with
    | none => (db, RefundResult.notFound)
    | some o =>
      if o.paymentStatus != PaymentStatus.PAID then (db, RefundResult.notPaid)
      else
        ({ db with
            products := releaseStock (db.orderItemsOf oid) db.products
            orders := db.orders.map (fun x =>
              if x.id == oid then
                { x with status := OrderStatus.REFUNDED,
                         paymentStatus := PaymentStatus.REFUNDED }
              else x) },
          RefundResult.success)

/-- Outcome of `confirmPayment`, one constructor per `return` path. -/
inductive ConfirmResult
  | missingIntent
  | orderNotFound
  | paymentSucceeded (orderId : Nat)
  | paymentFailed (orderId : Nat)
deriving Repr, DecidableEq

/-- Payment controller `confirmPayment`: requires a
`paymentIntentId`; finds the caller's order by `stripePaymentId`; the
mock gateway outcome (`Math.random() > 0.1` in the code) is the
`isSuccessful` parameter.  On success the order is set to
`CONFIRMED` / `PAID`; on failure only `paymentStatus` becomes `FAILED`.
No current-status guard exists on either branch. -/
def confirmPayment (u : Nat) (paymentIntentId : Option String) (isSuccessful : Bool)
    (db : DB) : DB × ConfirmResult :=
  match paymentIntentId with
  | none => (db, ConfirmResult.missingIntent)
  | some pid =>
    match db.orders.find? (fun o => o.stripePaymentId == some pid && o.userId == u) with
    | none => (db, ConfirmResult.orderNotFound)
    | some o =>
      match isSuccessful with
      | true =>
        ({ db with orders := db.orders.map (fun x =>
            if x.id == o.id then
              { x with paymentStatus := PaymentStatus.PAID,
                       status := OrderStatus.CONFIRMED }
            else x) },
          ConfirmResult.paymentSucceeded o.id)
      | false =>
        ({ db with orders := db.orders.map (fun x =>
            if x.id == o.id then { x with paymentStatus := PaymentStatus.FAILED } else x) },
          ConfirmResult.paymentFailed o.id)

/-- Outcome of the cart-mutation controllers. -/
inductive CartResult
  | validationError
  | productNotFound
  | itemNotFound
  | insufficientStock (available : Int)
  | dbError
  | success
deriving Repr, DecidableEq

/-- The get-or-create step of `addToCart`: return the caller's cart,
creating the row first when absent (`prisma.cart.create`). -/
def getOrCreateCart (u : Nat) (db : DB) : Cart × DB :=
  match db.findCart u with
  | some c => (c, db)
  | none =>
    ({ id := db.nextCartId, userId := u },
      { db with
          carts := db.carts ++ [{ id := db.nextCartId, userId := u }]
          nextCartId := db.nextCartId + 1 })

/-- Cart controller `addToCart`: validates `quantity ≥ 1` (the code's
`!quantity || quantity < 1` also rejects 0); the product must exist and
have `stock ≥ quantity`; the cart is created lazily; if a line for this
product already exists its quantity grows by `quantity` after a second
stock check against the same product read, else a new line is created. -/
def addToCart (u : Nat) (productId : Option Nat) (quantity : Nat) (db : DB) :
    DB × CartResult :=
  match productId with
  | none => (db, CartResult.validationError)
  | some pid =>
    if quantity < 1 then (db, CartResult.validationError)
    else
      match db.findProduct pid with
      | none => (db, CartResult.productNotFound)
      | some product =>
        if product.stock < (quantity : Int) then
          (db, CartResult.insufficientStock product.stock)
        else
          match getOrCreateCart u db with
          | (cart, db1) =>
            match db1.cartItems.find? (fun ci => ci.cartId == cart.id && ci.productId == pid) with
            | some existing =>
              if product.stock < ((existing.quantity + quantity : Nat) : Int) then
                (db1, CartResult.insufficientStock product.stock)
              else
                ({ db1 with cartItems := db1.cartItems.map (fun ci =>
                    if ci.id == existing.id then
                      { ci with quantity := existing.quantity + quantity }
                    else ci) },
                  CartResult.success)
            | none =>
              ({ db1 with
                  cartItems := db1.cartItems ++
                    [{ id := db1.nextCartItemId, cartId := cart.id,
                       productId := pid, quantity := quantity }]
                  nextCartItemId := db1.nextCartItemId + 1 },
                CartResult.success)

/-- Cart controller `updateCartItem`: validates `quantity ≥ 1`; the
line must exist and its cart belong to the caller (else 404, never 403);
the product must have `stock ≥ quantity`; then the line's quantity is
replaced. -/
def updateCartItem (u itemId : Nat) (quantity : Nat) (db : DB) : DB × CartResult :=
  if quantity < 1 then (db, CartResult.validationError)
  else
    match db.cartItems.find? (fun ci => ci.id == itemId) with
    | none => (db, CartResult.itemNotFound)
    | some ci =>
      match db.carts.find? (fun c => c.id == ci.cartId) with
      | none => (db, CartResult.dbError)
      | some c =>
        if c.userId != u then (db, CartResult.itemNotFound)
        else
          match db.findProduct ci.productId with
          | none => (db, CartResult.dbError)
          | some product =>
            if product.stock < (quantity : Int) then
              (db, CartResult.insufficientStock product.stock)
            else
              ({ db with cartItems := db.cartItems.map (fun x =>
                  if x.id == itemId then { x with quantity := quantity } else x) },
                CartResult.success)

/-- Cart controller `removeFromCart`: the line must exist and its cart
belong to the caller (else 404); then the line is deleted. -/
def removeFromCart (u itemId : Nat) (db : DB) : DB × CartResult :=
  match db.cartItems.find? (fun ci => ci.id == itemId) with
  | none => (db, CartResult.itemNotFound)
  | some ci =>
    match db.carts.find? (fun c => c.id == ci.cartId) with
    | none => (db, CartResult.dbError)
    | some c =>
      if c.userId != u then (db, CartResult.itemNotFound)
      else
        ({ db with cartItems := db.cartItems.filter (fun x => x.id != itemId) },
          CartResult.success)

/-- Outcome of `clearCart`. -/
inductive ClearResult
  | notFound
  | success
deriving Repr, DecidableEq

/-- Cart controller `clearCart`: if the user has no cart row the
response is 404 `Cart not found`; otherwise every line of the cart is
deleted (`deleteMany({ where: { cartId } })`). -/
def clearCart (u : Nat) (db : DB) : DB × ClearResult :=
  match db.findCart u with
  | none => (db, ClearResult.notFound)
  | some cart =>
    ({ db with cartItems := db.cartItems.filter (fun ci => ci.cartId != cart.id) },
      ClearResult.success)

/-- One request against the core: the cart, checkout, order-lifecycle
and payment operations. -/
inductive Op
  | addToCart (u : Nat) (pid : Option Nat) (q : Nat)
  | updateCartItem (u itemId q : Nat)
  | removeFromCart (u itemId : Nat)
  | clearCart (u : Nat)
  | createOrder (u : Nat) (aid : Option Nat)
  | cancelOrder (u oid : Nat)
  | refundPayment (r : Role) (oid : Nat)
  | confirmPayment (u : Nat) (intent : Option String) (ok : Bool)
deriving Repr, DecidableEq

/-- The state change of one request (the response is dropped). -/
def applyOp (op : Op) (db : DB) : DB :=
  match op with
  | Op.addToCart u pid q => (addToCart u pid q db).1
  | Op.updateCartItem u i q => (updateCartItem u i q db).1
  | Op.removeFromCart u i => (removeFromCart u i db).1
  | Op.clearCart u => (clearCart u db).1
  | Op.createOrder u aid => (createOrder u aid db).1
  | Op.cancelOrder u oid => (cancelOrder u oid db).1
  | Op.refundPayment r oid => (refundPayment r oid db).1
  | Op.confirmPayment u it ok => (confirmPayment u it ok db).1

/-- Run a sequence of requests left to right. -/
def applyOps (ops : List Op) (db : DB) : DB :=
  ops.foldl (fun acc op => applyOp op acc) db

/-- The state invariant the core operations maintain: stocks are
nonnegative; product ids are unique (primary key); each cart's lines
carry distinct products (the `cartId_productId` unique constraint);
every cart line references an existing cart (foreign key); and cart ids
stay below the cart-id counter. -/
def Inv (db : DB) : Prop :=
  (∀ p ∈ db.products, 0 ≤ p.stock) ∧
  (db.products.map Product.id).Nodup ∧
  (∀ cid, ((db.itemsOf cid).map CartItem.productId).Nodup) ∧
  (∀ ci ∈ db.cartItems, ∃ c ∈ db.carts, c.id = ci.cartId) ∧
  (∀ c ∈ db.carts, c.id < db.nextCartId)

/-- Rounding to 2 decimal places, half up: the `round2` the spec's
pricing rule asks for.  The checkout code itself applies no rounding. -/
def round2 (x : Rat) : Rat := ((x * 100 + 1 / 2).floor : Rat) / 100

/-- The cumulative effect on the `Product` table of the per-line
unconditional stock decrements of the checkout transaction. -/
def decProducts (ls : List (CartItem × Product)) (ps : List Product) : List Product :=
  ls.foldl (fun acc x => incStock x.1.productId (-(x.1.quantity : Int)) acc) ps

/-- Freshness of the order-id counter: every persisted order has a
smaller id, as with a counter-assigned primary key. -/
def ordersFresh (db : DB) : Prop :=
  ∀ o ∈ db.orders, o.id < db.nextOrderId

/-- Freshness of the order ids referenced by persisted order items. -/
def orderItemsFresh (db : DB) : Prop :=
  ∀ oi ∈ db.orderItems, oi.orderId < db.nextOrderId

/-! ### Example states used by witnesses and counterexamples -/

/-- One product (price 20, stock 5), one cart for user 1 holding 3 units,
one address owned by user 1 — the spec's checkout scenario. -/
def scenarioDB : DB :=
  { products := [{ id := 1, name := "Widget", price := 20, stock := 5 }]
    carts := [{ id := 1, userId := 1 }]
    cartItems := [{ id := 1, cartId := 1, productId := 1, quantity := 3 }]
    addresses := [{ id := 1, userId := 1 }]
    orders := []
    orderItems := []
    nextOrderId := 0
    nextCartId := 2
    nextCartItemId := 2 }

/-- Like `scenarioDB` but the product costs 0.01 and the cart holds one
unit, so the computed tax is 0.001 — not a 2-decimal value. -/
def pennyDB : DB :=
  { scenarioDB with
      products := [{ id := 1, name := "Widget", price := 1 / 100, stock := 5 }]
      cartItems := [{ id := 1, cartId := 1, productId := 1, quantity := 1 }] }

/-- Like `scenarioDB` but the cart asks for 9 units while only 5 are in
stock. -/
def shortDB : DB :=
  { scenarioDB with
      cartItems := [{ id := 1, cartId := 1, productId := 1, quantity := 9 }] }

/-- A state holding one persisted order (id 0, user 1, `PENDING`/`UNPAID`,
payment intent `pi1`) over 3 units of product 1, whose stock is already
down to 2 — the state right after the `scenarioDB` checkout. -/
def orderDB : DB :=
  { products := [{ id := 1, name := "Widget", price := 20, stock := 2 }]
    carts := [{ id := 1, userId := 1 }]
    cartItems := []
    addresses := [{ id := 1, userId := 1 }]
    orders := [{ id := 0, userId := 1, addressId := 1,
                 status := OrderStatus.PENDING, paymentStatus := PaymentStatus.UNPAID,
                 subtotal := 60, tax := 6, shipping := 10, total := 76,
                 stripePaymentId := some "pi1" }]
    orderItems := [{ orderId := 0, productId := 1, quantity := 3, price := 20, subtotal := 60 }]
    nextOrderId := 1
    nextCartId := 2
    nextCartItemId := 2 }

/-- State `orderDB` with the order already cancelled. -/
def cancelledDB : DB :=
  { orderDB with
      orders := [{ id := 0, userId := 1, addressId := 1,
                   status := OrderStatus.CANCELLED, paymentStatus := PaymentStatus.UNPAID,
                   subtotal := 60, tax := 6, shipping := 10, total := 76,
                   stripePaymentId := some "pi1" }] }

/-- State `orderDB` with the order confirmed and paid. -/
def paidDB : DB :=
  { orderDB with
      orders := [{ id := 0, userId := 1, addressId := 1,
                   status := OrderStatus.CONFIRMED, paymentStatus := PaymentStatus.PAID,
                   subtotal := 60, tax := 6, shipping := 10, total := 76,
                   stripePaymentId := some "pi1" }] }

/-- State `scenarioDB` with an empty cart for user 1. -/
def emptyCartDB : DB :=
  { scenarioDB with cartItems := [] }

/-- One unit of product 1 left in stock; users 1 and 2 each hold a cart
asking for that one unit, and each own an address — the spec's
last-unit race scenario. -/
def raceDB : DB :=
  { products := [{ id := 1, name := "Gadget", price := 50, stock := 1 }]
    carts := [{ id := 1, userId := 1 }, { id := 2, userId := 2 }]
    cartItems := [{ id := 1, cartId := 1, productId := 1, quantity := 1 },
                  { id := 2, cartId := 2, productId := 1, quantity := 1 }]
    addresses := [{ id := 1, userId := 1 }, { id := 2, userId := 2 }]
    orders := []
    orderItems := []
    nextOrderId := 0
    nextCartId := 3
    nextCartItemId := 3 }

/-- The joined cart line session 1 reads from `raceDB` before its
transaction. -/
def raceLines1 : List (CartItem × Product) :=
  [({ id := 1, cartId := 1, productId := 1, quantity := 1 },
    { id := 1, name := "Gadget", price := 50, stock := 1 })]

/-- The joined cart line session 2 reads from `raceDB` before its
transaction (the same stock snapshot: neither transaction has committed
yet, which read-committed isolation permits). -/
def raceLines2 : List (CartItem × Product) :=
  [({ id := 2, cartId := 2, productId := 1, quantity := 1 },
    { id := 1, name := "Gadget", price := 50, stock := 1 })]

/-- The interleaved execution: both sessions pass the pre-transaction
stock check against `raceDB`, then session 1's transaction commits,
then session 2's transaction commits using the lines it read before
either commit. -/
def raceInterleaved : DB :=
  checkoutTx 2 2 2 raceLines2 (subtotalOf raceLines2) (taxOf (subtotalOf raceLines2))
    (shippingOf (subtotalOf raceLines2)) (totalOf (subtotalOf raceLines2))
    (checkoutTx 1 1 1 raceLines1 (subtotalOf raceLines1) (taxOf (subtotalOf raceLines1))
      (shippingOf (subtotalOf raceLines1)) (totalOf (subtotalOf raceLines1)) raceDB)

/-! ### Helper lemmas -/

theorem filter_filter_of_imp {α : Type} (l : List α) (p q : α → Bool)
    (h : ∀ a, q a = true → p a = true) :
    (l.filter p).filter q = l.filter q := by
  rw [List.filter_filter]
  apply List.filter_congr
  intro x _
  cases hq : q x with
  | false => simp
  | true => simp [h x hq]

theorem filter_of_disjoint {α : Type} (l : List α) (p q : α → Bool)
    (h : ∀ a, p a = true → q a = false) :
    (l.filter p).filter q = [] := by
  rw [List.filter_filter]
  rw [List.filter_eq_nil_iff]
  intro a _
  cases hp : p a with
  | false => simp [hp]
  | true => simp [hp, h a hp]

theorem find?_map_preserving {α : Type} (l : List α) (idf : α → Nat) (g : α → α)
    (hg : ∀ a, idf (g a) = idf a) (k : Nat) :
    (l.map g).find? (fun a => idf a == k) = (l.find? (fun a => idf a == k)).map g := by
  induction l with
  | nil => rfl
  | cons a t ih =>
    by_cases h : idf a = k
    · rw [List.map_cons, List.find?_cons_of_pos _ (by simp [hg, h]),
        List.find?_cons_of_pos _ (by simp [h])]
      rfl
    · rw [List.map_cons, List.find?_cons_of_neg _ (by simp [hg, h]),
        List.find?_cons_of_neg _ (by simp [h]), ih]

theorem find?_orders_map (l : List Order) (g : Order → Order)
    (hg : ∀ a, (g a).id = a.id) (k : Nat) :
    (l.map g).find? (fun o => o.id == k) = (l.find? (fun o => o.id == k)).map g :=
  find?_map_preserving l Order.id g hg k

theorem find?_incStock (ps : List Product) (pid : Nat) (q : Int) (k : Nat) :
    (incStock pid q ps).find? (fun p => p.id == k) =
      (ps.find? (fun p => p.id == k)).map
        (fun p => if p.id == pid then { p with stock := p.stock + q } else p) := by
  apply find?_map_preserving
  intro a
  split <;> rfl

theorem find?_incStock_ne (ps : List Product) (pid : Nat) (q : Int) (k : Nat)
    (h : k ≠ pid) :
    (incStock pid q ps).find? (fun p => p.id == k) = ps.find? (fun p => p.id == k) := by
  rw [find?_incStock]
  cases hf : ps.find? (fun p => p.id == k) with
  | none => rfl
  | some p =>
    have hpk : p.id = k := by simpa using List.find?_some hf
    simp [Option.map_some, hpk, h]

theorem releaseStock_find?_of_not_mem (items : List OrderItem) (ps : List Product)
    (k : Nat) (h : ∀ it ∈ items, it.productId ≠ k) :
    (releaseStock items ps).find? (fun p => p.id == k) =
      ps.find? (fun p => p.id == k) := by
  induction items generalizing ps with
  | nil => rfl
  | cons it rest ih =>
    have hk : k ≠ it.productId := fun he => h it (by simp) he.symm
    calc (releaseStock (it :: rest) ps).find? (fun p => p.id == k)
        = (releaseStock rest (incStock it.productId (it.quantity : Int) ps)).find?
            (fun p => p.id == k) := rfl
      _ = (incStock it.productId (it.quantity : Int) ps).find? (fun p => p.id == k) :=
          ih _ (fun x hx => h x (by simp [hx]))
      _ = ps.find? (fun p => p.id == k) := find?_incStock_ne _ _ _ _ hk

theorem releaseStock_find?_mem (items : List OrderItem) (ps : List Product)
    (hnd : (items.map OrderItem.productId).Nodup) :
    ∀ it ∈ items, ∀ p, ps.find? (fun x => x.id == it.productId) = some p →
      (releaseStock items ps).find? (fun x => x.id == it.productId) =
        some { p with stock := p.stock + (it.quantity : Int) } := by
  induction items generalizing ps with
  | nil => intro it h; simp at h
  | cons hd rest ih =>
    intro it hmem p hp
    have hnd' : (rest.map OrderItem.productId).Nodup := (List.nodup_cons.mp hnd).2
    have hhd : hd.productId ∉ rest.map OrderItem.productId := (List.nodup_cons.mp hnd).1
    rcases List.mem_cons.mp hmem with he | hr
    · subst he
      show (releaseStock rest (incStock it.productId (it.quantity : Int) ps)).find?
          (fun x => x.id == it.productId) = _
      rw [releaseStock_find?_of_not_mem]
      · rw [find?_incStock, hp]
        simp [Option.map_some, beq_iff_eq, (by simpa using List.find?_some hp : p.id = it.productId)]
      · intro x hx he2
        exact hhd (by rw [← he2]; exact List.mem_map_of_mem OrderItem.productId hx)
    · have hne : it.productId ≠ hd.productId := by
        intro he2
        exact hhd (he2 ▸ List.mem_map_of_mem OrderItem.productId hr)
      show (releaseStock rest (incStock hd.productId (hd.quantity : Int) ps)).find?
          (fun x => x.id == it.productId) = _
      apply ih _ hnd' it hr
      rw [find?_incStock_ne _ _ _ _ hne, hp]

/-- With unique order ids, the first order matching `id = oid ∧ userId = u`
is also the first matching `id = oid` alone. -/
theorem findOrder_of_findUserOrder (db : DB) (oid u : Nat) (o : Order)
    (hnd : (db.orders.map Order.id).Nodup) (h : db.findUserOrder oid u = some o) :
    db.findOrder oid = some o := by
  have hmem : o ∈ db.orders := List.mem_of_find?_eq_some h
  have hpred := List.find?_some h
  have hoid : o.id = oid := by
    simp only [Bool.and_eq_true, beq_iff_eq] at hpred
    exact hpred.1
  have hsome : (db.orders.find? (fun x => x.id == oid)).isSome := by
    rw [List.find?_isSome]
    exact ⟨o, hmem, by simp [hoid]⟩
  rcases Option.isSome_iff_exists.mp hsome with ⟨o', ho'⟩
  have hmem' : o' ∈ db.orders := List.mem_of_find?_eq_some ho'
  have hoid' : o'.id = oid := by simpa using List.find?_some ho'
  have : o' = o := List.inj_on_of_nodup_map hnd hmem' hmem (by rw [hoid, hoid'])
  rw [DB.findOrder, ho', this]

/-! ### C10: clearCart -/

/-- C10: `clearCart(userId)` on a user who has no cart row answers
`Cart not found` with the state unchanged (it does not succeed as a
no-op); when a cart exists it deletes exactly that cart's lines, leaves
every other table and every other cart's lines unchanged, and reports
success. -/
theorem c10_clearCart (db : DB) (u : Nat) :
    (db.findCart u = none → clearCart u db = (db, ClearResult.notFound)) ∧
    (∀ c, db.findCart u = some c →
      (clearCart u db).2 = ClearResult.success ∧
      (clearCart u db).1.itemsOf c.id = [] ∧
      (∀ cid, cid ≠ c.id → (clearCart u db).1.itemsOf cid = db.itemsOf cid) ∧
      (clearCart u db).1.products = db.products ∧
      (clearCart u db).1.orders = db.orders ∧
      (clearCart u db).1.orderItems = db.orderItems ∧
      (clearCart u db).1.carts = db.carts) := by
  constructor
  · intro h
    simp [clearCart, h]
  · intro c h
    simp only [clearCart, h]
    refine ⟨trivial, ?_, ?_, trivial, trivial, trivial, trivial⟩
    · apply filter_of_disjoint
      intro a hp
      simp only [bne_iff_ne, ne_eq] at hp
      simp [hp]
    · intro cid hcid
      apply filter_filter_of_imp
      intro a hq
      simp only [beq_iff_eq] at hq
      rw [hq]
      simp only [bne_iff_ne, ne_eq]
      exact fun hh => hcid hh

/-- Witness for C10 at a concrete state: user 99 has no cart and gets
`notFound` with nothing changed; user 1 has a cart and gets `success`
with the cart emptied. -/
theorem c10_clearCart_witness :
    clearCart 99 scenarioDB = (scenarioDB, ClearResult.notFound) ∧
    (clearCart 1 scenarioDB).2 = ClearResult.success ∧
    (clearCart 1 scenarioDB).1.itemsOf 1 = [] := by
  refine ⟨(c10_clearCart scenarioDB 99).1 (by decide), ?_, ?_⟩
  · exact ((c10_clearCart scenarioDB 1).2 { id := 1, userId := 1 } (by decide)).1
  · exact ((c10_clearCart scenarioDB 1).2 { id := 1, userId := 1 } (by decide)).2.1

/-- C6: `cancelOrder` answers `Order not found` (404) for an order that
is absent or not owned by the caller, leaving the state untouched;
rejects any non-`PENDING` order (in particular an already-`CANCELLED`
one) with the 400 `Only pending orders can be cancelled` response and no
stock change; and on a `PENDING` order owned by the caller succeeds,
setting the status to `CANCELLED` and adding each order line's quantity
back to its product's stock, all other products unchanged. -/
theorem c6_cancelOrder (db : DB) (u oid : Nat) :
    (db.findUserOrder oid u = none → cancelOrder u oid db = (db, CancelResult.notFound)) ∧
    (∀ o, db.findUserOrder oid u = some o → o.status ≠ OrderStatus.PENDING →
      cancelOrder u oid db = (db, CancelResult.invalidTransition)) ∧
    (∀ o, db.findUserOrder oid u = some o → o.status = OrderStatus.PENDING →
      ((db.orderItemsOf oid).map OrderItem.productId).Nodup →
      (db.orders.map Order.id).Nodup →
      (cancelOrder u oid db).2 = CancelResult.success ∧
      (cancelOrder u oid db).1.findOrder oid = some { o with status := OrderStatus.CANCELLED } ∧
      (∀ it ∈ db.orderItemsOf oid, ∀ p, db.findProduct it.productId = some p →
        (cancelOrder u oid db).1.findProduct it.productId =
          some { p with stock := p.stock + (it.quantity : Int) }) ∧
      (∀ pid, (∀ it ∈ db.orderItemsOf oid, it.productId ≠ pid) →
        (cancelOrder u oid db).1.findProduct pid = db.findProduct pid)) := by
  refine ⟨?_, ?_, ?_⟩
  · intro h
    simp [cancelOrder, h]
  · intro o h hs
    simp [cancelOrder, h, bne_iff_ne, hs]
  · intro o h hs hndItems hndOrders
    have hbody : cancelOrder u oid db =
        ({ db with
            products := releaseStock (db.orderItemsOf oid) db.products
            orders := db.orders.map (fun x =>
              if x.id == oid then { x with status := OrderStatus.CANCELLED } else x) },
          CancelResult.success) := by
      simp [cancelOrder, h, hs]
    refine ⟨by rw [hbody], ?_, ?_, ?_⟩
    · rw [hbody]
      simp only [DB.findOrder]
      rw [find?_orders_map db.orders _ (fun a => by split <;> rfl) oid]
      have hfo : db.orders.find? (fun o => o.id == oid) = some o :=
        findOrder_of_findUserOrder db oid u o hndOrders h
      rw [hfo]
      have hoid : o.id = oid := by
        have := List.find?_some h
        simp only [Bool.and_eq_true, beq_iff_eq] at this
        exact this.1
      simp [hoid]
    · intro it hit p hp
      rw [hbody]
      exact releaseStock_find?_mem _ _ hndItems it hit p hp
    · intro pid hpid
      rw [hbody]
      exact releaseStock_find?_of_not_mem _ _ _ hpid

/-- Witness for C6 at concrete states: a missing order id gives
`notFound`; cancelling the already-cancelled order gives
`invalidTransition` with no state change; cancelling the pending order
succeeds and restores product 1's stock from 2 to 5. -/
theorem c6_cancelOrder_witness :
    cancelOrder 1 5 orderDB = (orderDB, CancelResult.notFound) ∧
    cancelOrder 1 0 cancelledDB = (cancelledDB, CancelResult.invalidTransition) ∧
    (cancelOrder 1 0 orderDB).2 = CancelResult.success ∧
    (cancelOrder 1 0 orderDB).1.stockOf 1 = some 5 := by
  have h3 := (c6_cancelOrder orderDB 1 0).2.2
    { id := 0, userId := 1, addressId := 1,
      status := OrderStatus.PENDING, paymentStatus := PaymentStatus.UNPAID,
      subtotal := 60, tax := 6, shipping := 10, total := 76,
      stripePaymentId := some "pi1" }
    (by decide) rfl (by decide) (by decide)
  refine ⟨(c6_cancelOrder orderDB 1 5).1 (by decide),
    (c6_cancelOrder cancelledDB 1 0).2.1
      { id := 0, userId := 1, addressId := 1,
        status := OrderStatus.CANCELLED, paymentStatus := PaymentStatus.UNPAID,
        subtotal := 60, tax := 6, shipping := 10, total := 76,
        stripePaymentId := some "pi1" }
      (by decide) (by decide),
    h3.1, ?_⟩
  have hst := h3.2.2.1 { orderId := 0, productId := 1, quantity := 3, price := 20, subtotal := 60 }
    (by decide) { id := 1, name := "Widget", price := 20, stock := 2 } (by decide)
  rw [DB.stockOf, hst]
  rfl

/-- C7: `refundPayment` rejects any non-`ADMIN` caller with 403
`Forbidden` and no state change; for an admin, an absent order gives 404
and an order whose `paymentStatus` is not `PAID` is rejected with the
400 `Order is not paid` response, again with no state change; on a
`PAID` order it succeeds, setting status and payment status to
`REFUNDED` and adding each order line's quantity back to its product's
stock, all other products unchanged. -/
theorem c7_refundPayment (db : DB) (role : Role) (oid : Nat) :
    (role ≠ Role.ADMIN → refundPayment role oid db = (db, RefundResult.forbidden)) ∧
    (db.findOrder oid = none → refundPayment Role.ADMIN oid db = (db, RefundResult.notFound)) ∧
    (∀ o, db.findOrder oid = some o → o.paymentStatus ≠ PaymentStatus.PAID →
      refundPayment Role.ADMIN oid db = (db, RefundResult.notPaid)) ∧
    (∀ o, db.findOrder oid = some o → o.paymentStatus = PaymentStatus.PAID →
      ((db.orderItemsOf oid).map OrderItem.productId).Nodup →
      (refundPayment Role.ADMIN oid db).2 = RefundResult.success ∧
      (refundPayment Role.ADMIN oid db).1.findOrder oid =
        some { o with status := OrderStatus.REFUNDED,
                      paymentStatus := PaymentStatus.REFUNDED } ∧
      (∀ it ∈ db.orderItemsOf oid, ∀ p, db.findProduct it.productId = some p →
        (refundPayment Role.ADMIN oid db).1.findProduct it.productId =
          some { p with stock := p.stock + (it.quantity : Int) }) ∧
      (∀ pid, (∀ it ∈ db.orderItemsOf oid, it.productId ≠ pid) →
        (refundPayment Role.ADMIN oid db).1.findProduct pid = db.findProduct pid)) := by
  refine ⟨?_, ?_, ?_, ?_⟩
  · intro h
    simp [refundPayment, bne_iff_ne, h]
  · intro h
    simp [refundPayment, h]
  · intro o h hs
    simp [refundPayment, h, bne_iff_ne, hs]
  · intro o h hs hndItems
    have hbody : refundPayment Role.ADMIN oid db =
        ({ db with
            products := releaseStock (db.orderItemsOf oid) db.products
            orders := db.orders.map (fun x =>
              if x.id == oid then
                { x with status := OrderStatus.REFUNDED,
                         paymentStatus := PaymentStatus.REFUNDED }
              else x) },
          RefundResult.success) := by
      simp [refundPayment, h, hs]
    refine ⟨by rw [hbody], ?_, ?_, ?_⟩
    · rw [hbody]
      simp only [DB.findOrder]
      rw [find?_orders_map db.orders _ (fun a => by split <;> rfl) oid]
      have hfo : db.orders.find? (fun x => x.id == oid) = some o := h
      rw [hfo]
      have hoid : o.id = oid := by simpa using List.find?_some h
      simp [hoid]
    · intro it hit p hp
      rw [hbody]
      exact releaseStock_find?_mem _ _ hndItems it hit p hp
    · intro pid hpid
      rw [hbody]
      exact releaseStock_find?_of_not_mem _ _ _ hpid

/-- Witness for C7 at concrete states: a `CUSTOMER` calling refund on
the paid order gets `forbidden` with no state change; an admin
refunding the unpaid pending order gets the `Order is not paid`
rejection with no state change; an admin refunding the paid order
succeeds and restores product 1's stock from 2 to 5. -/
theorem c7_refundPayment_witness :
    refundPayment Role.CUSTOMER 0 paidDB = (paidDB, RefundResult.forbidden) ∧
    refundPayment Role.ADMIN 0 orderDB = (orderDB, RefundResult.notPaid) ∧
    (refundPayment Role.ADMIN 0 paidDB).2 = RefundResult.success ∧
    (refundPayment Role.ADMIN 0 paidDB).1.stockOf 1 = some 5 := by
  have h4 := (c7_refundPayment paidDB Role.ADMIN 0).2.2.2
    { id := 0, userId := 1, addressId := 1,
      status := OrderStatus.CONFIRMED, paymentStatus := PaymentStatus.PAID,
      subtotal := 60, tax := 6, shipping := 10, total := 76,
      stripePaymentId := some "pi1" }
    (by decide) rfl (by decide)
  refine ⟨(c7_refundPayment paidDB Role.CUSTOMER 0).1 (by decide),
    (c7_refundPayment orderDB Role.ADMIN 0).2.2.1
      { id := 0, userId := 1, addressId := 1,
        status := OrderStatus.PENDING, paymentStatus := PaymentStatus.UNPAID,
        subtotal := 60, tax := 6, shipping := 10, total := 76,
        stripePaymentId := some "pi1" }
      (by decide) (by decide),
    h4.1, ?_⟩
  have hst := h4.2.2.1 { orderId := 0, productId := 1, quantity := 3, price := 20, subtotal := 60 }
    (by decide) { id := 1, name := "Widget", price := 20, stock := 2 } (by decide)
  rw [DB.stockOf, hst]
  rfl

/-! ### C5: confirmPayment -/

/-- With unique order ids, an order row of the table is the `findOrder`
result for its own id. -/
theorem findOrder_of_mem (db : DB) (o : Order)
    (hnd : (db.orders.map Order.id).Nodup) (hmem : o ∈ db.orders) :
    db.findOrder o.id = some o := by
  have hsome : (db.orders.find? (fun x => x.id == o.id)).isSome := by
    rw [List.find?_isSome]
    exact ⟨o, hmem, by simp⟩
  rcases Option.isSome_iff_exists.mp hsome with ⟨o', ho'⟩
  have hmem' : o' ∈ db.orders := List.mem_of_find?_eq_some ho'
  have hoid' : o'.id = o.id := by simpa using List.find?_some ho'
  have : o' = o := List.inj_on_of_nodup_map hnd hmem' hmem hoid'
  rw [DB.findOrder, ho', this]

/-- C5 counterexample: the claim says every transition from a source
state other than the listed ones is rejected with `InvalidTransition`,
but `confirmPayment` has no status guard at all: on the state whose only
order is `CANCELLED`/`UNPAID` (with payment intent `pi1`), a successful
payment confirmation is applied, making the cancelled order
`CONFIRMED`/`PAID` instead of being rejected. -/
theorem c5_confirmPayment_counterexample :
    (confirmPayment 1 (some "pi1") true cancelledDB).2 = ConfirmResult.paymentSucceeded 0 ∧
    ((confirmPayment 1 (some "pi1") true cancelledDB).1.findOrder 0).map
        (fun o => (o.status, o.paymentStatus)) =
      some (OrderStatus.CONFIRMED, PaymentStatus.PAID) := by
  decide

/-- C5 (amended): `confirmPayment` on the order found by the payment
intent sets, on gateway success, `status := CONFIRMED` and
`paymentStatus := PAID` whatever the current state, and on gateway
failure sets `paymentStatus := FAILED` leaving the status unchanged;
no source-state check is performed, so no transition is ever rejected
as `InvalidTransition` (in particular a `CANCELLED` order can become
`CONFIRMED`/`PAID`). -/
theorem c5_confirmPayment_amended (db : DB) (u : Nat) (pid : String) :
    ∀ o, db.orders.find? (fun x => x.stripePaymentId == some pid && x.userId == u) = some o →
      (db.orders.map Order.id).Nodup →
      ((confirmPayment u (some pid) true db).2 = ConfirmResult.paymentSucceeded o.id ∧
       (confirmPayment u (some pid) true db).1.findOrder o.id =
         some { o with status := OrderStatus.CONFIRMED,
                       paymentStatus := PaymentStatus.PAID }) ∧
      ((confirmPayment u (some pid) false db).2 = ConfirmResult.paymentFailed o.id ∧
       (confirmPayment u (some pid) false db).1.findOrder o.id =
         some { o with paymentStatus := PaymentStatus.FAILED }) := by
  intro o hfind hnd
  have hmem : o ∈ db.orders := List.mem_of_find?_eq_some hfind
  constructor
  · constructor
    · simp [confirmPayment, hfind]
    · simp only [confirmPayment, hfind]
      simp only [DB.findOrder]
      rw [find?_orders_map db.orders _ (fun a => by split <;> rfl) o.id]
      have hfo : db.orders.find? (fun x => x.id == o.id) = some o :=
        findOrder_of_mem db o hnd hmem
      rw [hfo]
      simp
  · constructor
    · simp [confirmPayment, hfind]
    · simp only [confirmPayment, hfind]
      simp only [DB.findOrder]
      rw [find?_orders_map db.orders _ (fun a => by split <;> rfl) o.id]
      have hfo : db.orders.find? (fun x => x.id == o.id) = some o :=
        findOrder_of_mem db o hnd hmem
      rw [hfo]
      simp

/-- Witness for the amended C5 at the pending order of `orderDB`: the
listed transition happens on success, and on failure only the payment
status changes. -/
theorem c5_confirmPayment_amended_witness :
    (confirmPayment 1 (some "pi1") true orderDB).2 = ConfirmResult.paymentSucceeded 0 ∧
    (confirmPayment 1 (some "pi1") true orderDB).1.findOrder 0 =
      some { id := 0, userId := 1, addressId := 1,
             status := OrderStatus.CONFIRMED, paymentStatus := PaymentStatus.PAID,
             subtotal := 60, tax := 6, shipping := 10, total := 76,
             stripePaymentId := some "pi1" } ∧
    (confirmPayment 1 (some "pi1") false orderDB).1.findOrder 0 =
      some { id := 0, userId := 1, addressId := 1,
             status := OrderStatus.PENDING, paymentStatus := PaymentStatus.FAILED,
             subtotal := 60, tax := 6, shipping := 10, total := 76,
             stripePaymentId := some "pi1" } := by
  have h := c5_confirmPayment_amended orderDB 1 "pi1"
    { id := 0, userId := 1, addressId := 1,
      status := OrderStatus.PENDING, paymentStatus := PaymentStatus.UNPAID,
      subtotal := 60, tax := 6, shipping := 10, total := 76,
      stripePaymentId := some "pi1" }
    (by decide) (by decide)
  exact ⟨h.1.1, h.1.2, h.2.2⟩

/-! ### C4: checkout precondition order -/

/-- C4 counterexample: the claim says an absent-or-empty cart yields
`EmptyCart` regardless of the address, but the controller validates the
presence of `addressId` first: a call with an empty cart and no
`addressId` is answered with the `Shipping address is required`
validation error, not with `EmptyCart`. -/
theorem c4_checkoutOrder_counterexample :
    (createOrder 1 none emptyCartDB).2 = CheckoutResult.missingAddress ∧
    CheckoutResult.missingAddress ≠ CheckoutResult.emptyCart := by
  decide

/-- C4 (amended): a call without an `addressId` fails with the
`Shipping address is required` validation error before anything else is
checked; when an `addressId` is supplied the preconditions are checked
in order, each with a distinct failure: absent or empty cart →
`EmptyCart` (for every supplied address); then address not owned by the
caller → `AddressNotFound`; then the first cart line whose quantity
exceeds live stock → `InsufficientStock` naming that product and its
available count. -/
theorem c4_checkoutOrder_amended (db : DB) (u : Nat) :
    ((createOrder u none db).2 = CheckoutResult.missingAddress) ∧
    (∀ aid, db.findCart u = none →
      (createOrder u (some aid) db).2 = CheckoutResult.emptyCart) ∧
    (∀ aid c, db.findCart u = some c → db.itemsOf c.id = [] →
      (createOrder u (some aid) db).2 = CheckoutResult.emptyCart) ∧
    (∀ aid c ls, db.findCart u = some c →
      joinProducts db (db.itemsOf c.id) = some ls → ls ≠ [] →
      db.findAddress aid u = none →
      (createOrder u (some aid) db).2 = CheckoutResult.addressNotFound) ∧
    (∀ aid c ls a n avail, db.findCart u = some c →
      joinProducts db (db.itemsOf c.id) = some ls →
      db.findAddress aid u = some a → firstShort ls = some (n, avail) →
      (createOrder u (some aid) db).2 = CheckoutResult.insufficientStock n avail) := by
  refine ⟨rfl, ?_, ?_, ?_, ?_⟩
  · intro aid h
    simp [createOrder, h]
  · intro aid c hc hempty
    simp [createOrder, hc, hempty, joinProducts]
  · intro aid c ls hc hj hne ha
    have : ls.isEmpty = false := by
      cases ls with
      | nil => exact absurd rfl hne
      | cons x t => rfl
    simp [createOrder, hc, hj, this, ha]
  · intro aid c ls a n avail hc hj ha hshort
    have hne : ls.isEmpty = false := by
      cases ls with
      | nil => simp [firstShort] at hshort
      | cons x t => rfl
    simp [createOrder, hc, hj, hne, ha, hshort]

/-- Witness for the amended C4, one concrete call per branch: no
`addressId`; a user with no cart; a user with an empty cart; a foreign
address; a cart line exceeding stock (product `Widget`, 5 available). -/
theorem c4_checkoutOrder_amended_witness :
    (createOrder 1 none scenarioDB).2 = CheckoutResult.missingAddress ∧
    (createOrder 99 (some 1) scenarioDB).2 = CheckoutResult.emptyCart ∧
    (createOrder 1 (some 7) emptyCartDB).2 = CheckoutResult.emptyCart ∧
    (createOrder 1 (some 99) scenarioDB).2 = CheckoutResult.addressNotFound ∧
    (createOrder 1 (some 1) shortDB).2 = CheckoutResult.insufficientStock "Widget" 5 := by
  refine ⟨(c4_checkoutOrder_amended scenarioDB 1).1,
    (c4_checkoutOrder_amended scenarioDB 99).2.1 1 (by decide),
    (c4_checkoutOrder_amended emptyCartDB 1).2.2.1 7 { id := 1, userId := 1 }
      (by decide) (by decide),
    (c4_checkoutOrder_amended scenarioDB 1).2.2.2.1 99 { id := 1, userId := 1 }
      [({ id := 1, cartId := 1, productId := 1, quantity := 3 },
        { id := 1, name := "Widget", price := 20, stock := 5 })]
      (by decide) (by decide) (by decide) (by decide),
    (c4_checkoutOrder_amended shortDB 1).2.2.2.2 1 { id := 1, userId := 1 }
      [({ id := 1, cartId := 1, productId := 1, quantity := 9 },
        { id := 1, name := "Widget", price := 20, stock := 5 })]
      { id := 1, userId := 1 } "Widget" 5
      (by decide) (by decide) (by decide) (by decide)⟩

/-! ### C2: no partial checkout -/

/-- Every pair built by the `include { product }` join pairs a cart item
with its catalog row. -/
theorem joinProducts_found (db : DB) (items : List CartItem)
    (ls : List (CartItem × Product)) (hj : joinProducts db items = some ls) :
    ∀ x ∈ ls, db.findProduct x.1.productId = some x.2 := by
  induction items generalizing ls with
  | nil =>
    intro x hx
    simp only [joinProducts, Option.some.injEq] at hj
    rw [← hj] at hx
    simp at hx
  | cons hd rest ih =>
    intro x hx
    simp only [joinProducts] at hj
    cases hf : db.findProduct hd.productId with
    | none => rw [hf] at hj; simp at hj
    | some q =>
      rw [hf] at hj
      cases hr : joinProducts db rest with
      | none => rw [hr] at hj; simp at hj
      | some ls' =>
        rw [hr] at hj
        have hj2 : ls = (hd, q) :: ls' := by symm; simpa using hj
        subst hj2
        rcases List.mem_cons.mp hx with he | hm
        · rw [he]; exact hf
        · exact ih ls' hr x hm

/-- The join returns the cart items themselves as first components. -/
theorem joinProducts_fst (db : DB) (items : List CartItem)
    (ls : List (CartItem × Product)) (hj : joinProducts db items = some ls) :
    ls.map Prod.fst = items := by
  induction items generalizing ls with
  | nil =>
    simp only [joinProducts, Option.some.injEq] at hj
    rw [← hj]
    rfl
  | cons hd rest ih =>
    simp only [joinProducts] at hj
    cases hf : db.findProduct hd.productId with
    | none => rw [hf] at hj; simp at hj
    | some q =>
      rw [hf] at hj
      cases hr : joinProducts db rest with
      | none => rw [hr] at hj; simp at hj
      | some ls' =>
        rw [hr] at hj
        have hj2 : ls = (hd, q) :: ls' := by symm; simpa using hj
        subst hj2
        simp [ih ls' hr]

/-- A pair joined from a cart item is in the joined list. -/
theorem joinProducts_mem (db : DB) (items : List CartItem)
    (ls : List (CartItem × Product)) (hj : joinProducts db items = some ls) :
    ∀ it ∈ items, ∀ p, db.findProduct it.productId = some p → (it, p) ∈ ls := by
  induction items generalizing ls with
  | nil => intro it h; simp at h
  | cons hd rest ih =>
    intro it hmem p hp
    simp only [joinProducts] at hj
    cases hf : db.findProduct hd.productId with
    | none => rw [hf] at hj; simp at hj
    | some q =>
      rw [hf] at hj
      cases hr : joinProducts db rest with
      | none => rw [hr] at hj; simp at hj
      | some ls' =>
        rw [hr] at hj
        have hj2 : ls = (hd, q) :: ls' := by symm; simpa using hj
        subst hj2
        rcases List.mem_cons.mp hmem with he | hm
        · subst he
          rw [hp] at hf
          cases hf
          exact List.mem_cons_self _ _
        · exact List.mem_cons_of_mem _ (ih ls' hr it hm p hp)

/-- If some joined line is short on stock, the stock-check loop reports
a failure. -/
theorem firstShort_ne_none (ls : List (CartItem × Product)) (it : CartItem) (p : Product)
    (hmem : (it, p) ∈ ls) (hshort : p.stock < (it.quantity : Int)) :
    firstShort ls ≠ none := by
  induction ls with
  | nil => simp at hmem
  | cons hd rest ih =>
    rcases List.mem_cons.mp hmem with he | hm
    · rw [← he]
      simp [firstShort, hshort]
    · show firstShort (hd :: rest) ≠ none
      rw [show firstShort (hd :: rest) =
          (if hd.2.stock < (hd.1.quantity : Int) then some (hd.2.name, hd.2.stock)
           else firstShort rest) from rfl]
      split
      · simp
      · exact ih hm

/-- C2: if any line of the caller's cart requests more than that
product's live stock, the checkout attempt does not succeed and the
whole state — every product's stock, the orders, the order lines, and
the cart — is exactly the pre-call state. -/
theorem c2_noPartialCheckout (db : DB) (u : Nat) (addressId : Option Nat)
    (h : ∃ c, db.findCart u = some c ∧ ∃ it ∈ db.itemsOf c.id, ∃ p,
      db.findProduct it.productId = some p ∧ p.stock < (it.quantity : Int)) :
    (createOrder u addressId db).1 = db ∧
    ∀ oid, (createOrder u addressId db).2 ≠ CheckoutResult.success oid := by
  rcases h with ⟨c, hc, it, hit, p, hp, hshort⟩
  cases addressId with
  | none => exact ⟨rfl, by simp [createOrder]⟩
  | some aid =>
    cases hj : joinProducts db (db.itemsOf c.id) with
    | none =>
      constructor
      · simp [createOrder, hc, hj]
      · intro oid
        simp [createOrder, hc, hj]
    | some ls =>
      have hmem : (it, p) ∈ ls := joinProducts_mem db _ ls hj it hit p hp
      have hne : ls.isEmpty = false := by
        cases ls with
        | nil => simp at hmem
        | cons x t => rfl
      cases ha : db.findAddress aid u with
      | none =>
        constructor
        · simp [createOrder, hc, hj, hne, ha]
        · intro oid
          simp [createOrder, hc, hj, hne, ha]
      | some a =>
        cases hfs : firstShort ls with
        | none => exact absurd hfs (firstShort_ne_none ls it p hmem hshort)
        | some x =>
          obtain ⟨n, avail⟩ := x
          constructor
          · simp [createOrder, hc, hj, hne, ha, hfs]
          · intro oid
            simp [createOrder, hc, hj, hne, ha, hfs]

/-- Witness for C2: in `shortDB` the cart asks for 9 of product 1 while
stock is 5; the checkout leaves the state untouched and does not
succeed. -/
theorem c2_noPartialCheckout_witness :
    (createOrder 1 (some 1) shortDB).1 = shortDB ∧
    (createOrder 1 (some 1) shortDB).2 ≠ CheckoutResult.success 0 := by
  have h := c2_noPartialCheckout shortDB 1 (some 1)
    ⟨{ id := 1, userId := 1 }, by decide,
      { id := 1, cartId := 1, productId := 1, quantity := 9 }, by decide,
      { id := 1, name := "Widget", price := 20, stock := 5 }, by decide, by decide⟩
  exact ⟨h.1, h.2 0⟩

/-! ### The checkout transaction, resolved -/

theorem txLoop_eq (oid : Nat) (ls : List (CartItem × Product)) (db : DB) :
    txLoop oid ls db =
      { db with
          orderItems := db.orderItems ++ ls.map (mkOrderItem oid)
          products := decProducts ls db.products } := by
  induction ls generalizing db with
  | nil => simp [txLoop, decProducts]
  | cons x rest ih =>
    show txLoop oid rest _ = _
    rw [ih]
    simp [decProducts]

theorem checkoutTx_eq (u aid cartId : Nat) (ls : List (CartItem × Product))
    (sub tax ship tot : Rat) (db : DB) :
    checkoutTx u aid cartId ls sub tax ship tot db =
      { db with
          orders := db.orders ++
            [{ id := db.nextOrderId, userId := u, addressId := aid,
               status := defaultOrderStatus, paymentStatus := defaultPaymentStatus,
               subtotal := sub, tax := tax, shipping := ship, total := tot,
               stripePaymentId := none }]
          nextOrderId := db.nextOrderId + 1
          orderItems := db.orderItems ++ ls.map (mkOrderItem db.nextOrderId)
          products := decProducts ls db.products
          cartItems := db.cartItems.filter (fun ci => ci.cartId != cartId) } := by
  show ({ txLoop db.nextOrderId ls _ with
            cartItems := (txLoop db.nextOrderId ls _).cartItems.filter _ } : DB) = _
  rw [txLoop_eq]

/-- Inversion of a successful checkout: which data it read and which
state it wrote. -/
theorem createOrder_success_inv (u aid : Nat) (db db' : DB) (oid : Nat)
    (h : createOrder u (some aid) db = (db', CheckoutResult.success oid)) :
    ∃ c ls, db.findCart u = some c ∧
      joinProducts db (db.itemsOf c.id) = some ls ∧
      ls ≠ [] ∧
      firstShort ls = none ∧
      oid = db.nextOrderId ∧
      db' = checkoutTx u aid c.id ls (subtotalOf ls) (taxOf (subtotalOf ls))
              (shippingOf (subtotalOf ls)) (totalOf (subtotalOf ls)) db := by
  unfold createOrder at h
  split at h
  · simp at h
  next a ha =>
    obtain rfl : aid = a := Option.some.inj ha
    split at h
    · simp at h
    next c hc =>
      split at h
      · simp at h
      next ls hj =>
        split at h
        next hem => simp at h
        next hem =>
          split at h
          · simp at h
          next addr haddr =>
            split at h
            next n avail hfs => simp at h
            next hfs =>
              simp only [Prod.mk.injEq, CheckoutResult.success.injEq] at h
              refine ⟨c, ls, hc, hj, ?_, hfs, h.2.symm, h.1.symm⟩
              intro hnil
              rw [hnil] at hem
              simp at hem

/-- The order row a successful checkout persists, with the totals it
computed before the transaction. -/
theorem createOrder_success_order (db db' : DB) (u aid oid : Nat)
    (h : createOrder u (some aid) db = (db', CheckoutResult.success oid))
    (hfresh : ordersFresh db) :
    ∃ c ls, db.findCart u = some c ∧
      joinProducts db (db.itemsOf c.id) = some ls ∧
      db'.findOrder oid =
        some { id := oid, userId := u, addressId := aid,
               status := defaultOrderStatus, paymentStatus := defaultPaymentStatus,
               subtotal := subtotalOf ls, tax := taxOf (subtotalOf ls),
               shipping := shippingOf (subtotalOf ls), total := totalOf (subtotalOf ls),
               stripePaymentId := none } := by
  obtain ⟨c, ls, hc, hj, hne, hfs, hoid, hdb⟩ := createOrder_success_inv u aid db db' oid h
  subst hoid
  subst hdb
  refine ⟨c, ls, hc, hj, ?_⟩
  rw [checkoutTx_eq]
  simp only [DB.findOrder]
  rw [List.find?_append]
  have hnone : db.orders.find? (fun o => o.id == db.nextOrderId) = none := by
    rw [List.find?_eq_none]
    intro o ho
    simpa using Nat.ne_of_lt (hfresh o ho)
  rw [hnone]
  simp [List.find?]

theorem foldl_add_eq_sum {α : Type} (f : α → Rat) (l : List α) (a : Rat) :
    l.foldl (fun s x => s + f x) a = a + (l.map f).sum := by
  induction l generalizing a with
  | nil => simp
  | cons x t ih => simp [ih, add_assoc]

theorem subtotalOf_eq_sum (ls : List (CartItem × Product)) :
    subtotalOf ls = (ls.map (fun x => x.2.price * (x.1.quantity : Rat))).sum := by
  unfold subtotalOf
  rw [foldl_add_eq_sum]
  simp

/-! ### C1: pricing -/

unseal Rat.mul Rat.add Rat.inv Rat.sub in
/-- C1 counterexample: a successful checkout of one unit priced 0.01
persists `subtotal = 0.01` and `tax = 0.001`.  The claim's
`tax = round2(subtotal × 0.10)` fails — `round2(0.001) = 0 ≠ 0.001` —
and `tax × 100` is not an integer, so the persisted tax is not a
2-decimal fixed-point value under any rounding convention: the code
stores `subtotal * 0.1` unrounded. -/
theorem c1_pricing_counterexample :
    (createOrder 1 (some 1) pennyDB).2 = CheckoutResult.success 0 ∧
    ((createOrder 1 (some 1) pennyDB).1.findOrder 0).map
        (fun o => (o.subtotal, o.tax)) = some (1 / 100, 1 / 1000) ∧
    round2 ((1 / 100 : Rat) * (1 / 10)) = 0 ∧
    (1 / 1000 : Rat) ≠ round2 ((1 / 100 : Rat) * (1 / 10)) ∧
    ((1 / 1000 : Rat) * 100).den ≠ 1 := by
  refine ⟨by decide, by decide, by decide, by decide, by decide⟩

/-- C1 (amended): for every successful checkout the persisted order
satisfies `subtotal = Σ unitPrice_i · quantity_i` over the cart lines at
current catalog price, `tax = subtotal × 0.10` exactly — no rounding to
2 decimal places is applied — `shipping = 0 if subtotal > 100 else 10`,
and `total = subtotal + tax + shipping`; the arithmetic is done on
JavaScript numbers converted from the stored decimals (floating point,
modelled here as exact rationals), not in a fixed-point decimal type. -/
theorem c1_pricing_amended (db db' : DB) (u aid oid : Nat)
    (h : createOrder u (some aid) db = (db', CheckoutResult.success oid))
    (hfresh : ordersFresh db) :
    ∃ c ls o, db.findCart u = some c ∧
      joinProducts db (db.itemsOf c.id) = some ls ∧
      db'.findOrder oid = some o ∧
      o.subtotal = (ls.map (fun x => x.2.price * (x.1.quantity : Rat))).sum ∧
      o.tax = o.subtotal * (1 / 10) ∧
      o.shipping = (if o.subtotal > 100 then (0 : Rat) else 10) ∧
      o.total = o.subtotal + o.tax + o.shipping := by
  obtain ⟨c, ls, hc, hj, hfind⟩ := createOrder_success_order db db' u aid oid h hfresh
  exact ⟨c, ls, _, hc, hj, hfind, subtotalOf_eq_sum ls, rfl, rfl, rfl⟩

unseal Rat.mul Rat.add Rat.inv Rat.sub in
/-- Witness for the amended C1 on the spec's own scenario (price 20,
quantity 3): subtotal 60, tax 6, shipping 10 (subtotal ≤ 100),
total 76. -/
theorem c1_pricing_amended_witness :
    ordersFresh scenarioDB ∧
    ((createOrder 1 (some 1) scenarioDB).1.findOrder 0).map
        (fun o => (o.subtotal, o.tax, o.shipping, o.total)) = some (60, 6, 10, 76) := by
  have hfresh : ordersFresh scenarioDB := by
    intro o ho
    simp [scenarioDB] at ho
  refine ⟨hfresh, ?_⟩
  have h : createOrder 1 (some 1) scenarioDB =
      ((createOrder 1 (some 1) scenarioDB).1, CheckoutResult.success 0) := by decide
  obtain ⟨c, ls, o, hc, hj, hfind, hsub, htax, hship, htot⟩ :=
    c1_pricing_amended scenarioDB ((createOrder 1 (some 1) scenarioDB).1) 1 1 0 h hfresh
  have hc2 : scenarioDB.findCart 1 = some { id := 1, userId := 1 } := by decide
  have hcc : c = { id := 1, userId := 1 } := Option.some.inj (hc.symm.trans hc2)
  subst hcc
  have hj2 : joinProducts scenarioDB (scenarioDB.itemsOf 1) = some
      [({ id := 1, cartId := 1, productId := 1, quantity := 3 },
        { id := 1, name := "Widget", price := 20, stock := 5 })] := by decide
  have hls : ls = [({ id := 1, cartId := 1, productId := 1, quantity := 3 },
        { id := 1, name := "Widget", price := 20, stock := 5 })] :=
    Option.some.inj (hj.symm.trans hj2)
  subst hls
  rw [hfind]
  simp only [Option.map_some']
  rw [htot, htax, hship, hsub]
  decide

/-! ### C3: checkout success postconditions -/

theorem decProducts_find?_of_not_mem (ls : List (CartItem × Product)) (ps : List Product)
    (k : Nat) (h : ∀ x ∈ ls, x.1.productId ≠ k) :
    (decProducts ls ps).find? (fun p => p.id == k) = ps.find? (fun p => p.id == k) := by
  induction ls generalizing ps with
  | nil => rfl
  | cons x rest ih =>
    have hk : k ≠ x.1.productId := fun he => h x (by simp) he.symm
    calc (decProducts (x :: rest) ps).find? (fun p => p.id == k)
        = (decProducts rest (incStock x.1.productId (-(x.1.quantity : Int)) ps)).find?
            (fun p => p.id == k) := rfl
      _ = (incStock x.1.productId (-(x.1.quantity : Int)) ps).find? (fun p => p.id == k) :=
          ih _ (fun y hy => h y (by simp [hy]))
      _ = ps.find? (fun p => p.id == k) := find?_incStock_ne _ _ _ _ hk

theorem decProducts_find?_mem (ls : List (CartItem × Product)) (ps : List Product)
    (hnd : (ls.map (fun x => x.1.productId)).Nodup) :
    ∀ x ∈ ls, ∀ p, ps.find? (fun y => y.id == x.1.productId) = some p →
      (decProducts ls ps).find? (fun y => y.id == x.1.productId) =
        some { p with stock := p.stock + -(x.1.quantity : Int) } := by
  induction ls generalizing ps with
  | nil => intro x h; simp at h
  | cons hd rest ih =>
    intro x hmem p hp
    have hnd' : (rest.map (fun y => y.1.productId)).Nodup := (List.nodup_cons.mp hnd).2
    have hhd : hd.1.productId ∉ rest.map (fun y => y.1.productId) := (List.nodup_cons.mp hnd).1
    rcases List.mem_cons.mp hmem with he | hr
    · subst he
      show (decProducts rest (incStock x.1.productId (-(x.1.quantity : Int)) ps)).find? _ = _
      rw [decProducts_find?_of_not_mem]
      · rw [find?_incStock, hp]
        simp [beq_iff_eq, (by simpa using List.find?_some hp : p.id = x.1.productId)]
      · intro y hy he2
        exact hhd (by rw [← he2]; exact List.mem_map_of_mem _ hy)
    · have hne : x.1.productId ≠ hd.1.productId := by
        intro he2
        exact hhd (he2 ▸ List.mem_map_of_mem _ hr)
      show (decProducts rest (incStock hd.1.productId (-(hd.1.quantity : Int)) ps)).find? _ = _
      apply ih _ hnd' x hr
      rw [find?_incStock_ne _ _ _ _ hne, hp]

/-- C3: after every successful checkout, the caller's cart has no lines
left; a new order with the modelled schema defaults `PENDING`/`UNPAID`
exists under the returned id, owned by the caller with the given
address; its order lines are exactly one `mkOrderItem` per cart line,
freezing the catalog price read at order time (`price = x.2.price`,
`subtotal = price · quantity`); and each referenced product's stock is
decremented by exactly its ordered quantity, every other product
untouched. -/
theorem c3_checkout_postconditions (db db' : DB) (u aid oid : Nat)
    (h : createOrder u (some aid) db = (db', CheckoutResult.success oid))
    (hfreshO : ordersFresh db) (hfreshI : orderItemsFresh db) :
    ∃ c ls, db.findCart u = some c ∧
      joinProducts db (db.itemsOf c.id) = some ls ∧
      ls.map Prod.fst = db.itemsOf c.id ∧
      (∀ x ∈ ls, db.findProduct x.1.productId = some x.2) ∧
      db'.itemsOf c.id = [] ∧
      (∃ o, db'.findOrder oid = some o ∧
        o.status = OrderStatus.PENDING ∧ o.paymentStatus = PaymentStatus.UNPAID ∧
        o.userId = u ∧ o.addressId = aid) ∧
      db'.orderItemsOf oid = ls.map (mkOrderItem oid) ∧
      (((db.itemsOf c.id).map CartItem.productId).Nodup →
        (∀ x ∈ ls, db'.findProduct x.1.productId =
          some { x.2 with stock := x.2.stock - (x.1.quantity : Int) }) ∧
        (∀ pid, (∀ x ∈ ls, x.1.productId ≠ pid) →
          db'.findProduct pid = db.findProduct pid)) := by
  obtain ⟨c, ls, hc, hj, hne, hfs, hoid, hdb⟩ := createOrder_success_inv u aid db db' oid h
  have hfst := joinProducts_fst db _ ls hj
  have hfound := joinProducts_found db _ ls hj
  refine ⟨c, ls, hc, hj, hfst, hfound, ?_, ?_, ?_, ?_⟩
  · rw [hdb, checkoutTx_eq]
    show ((db.cartItems.filter _).filter fun ci => ci.cartId == c.id) = []
    apply filter_of_disjoint
    intro a hp
    simp only [bne_iff_ne, ne_eq] at hp
    simp [hp]
  · obtain ⟨c', ls', hc', hj', hfind⟩ := createOrder_success_order db db' u aid oid h hfreshO
    obtain rfl : c' = c := Option.some.inj (hc'.symm.trans hc)
    obtain rfl : ls' = ls := Option.some.inj (hj'.symm.trans hj)
    exact ⟨_, hfind, rfl, rfl, rfl, rfl⟩
  · rw [hdb, checkoutTx_eq, hoid]
    show ((db.orderItems ++ ls.map (mkOrderItem db.nextOrderId)).filter
      fun oi => oi.orderId == db.nextOrderId) = _
    rw [List.filter_append]
    have h1 : db.orderItems.filter (fun oi => oi.orderId == db.nextOrderId) = [] := by
      rw [List.filter_eq_nil_iff]
      intro a ha
      simpa using Nat.ne_of_lt (hfreshI a ha)
    have h2 : (ls.map (mkOrderItem db.nextOrderId)).filter
        (fun oi => oi.orderId == db.nextOrderId) = ls.map (mkOrderItem db.nextOrderId) := by
      rw [List.filter_eq_self]
      intro a ha
      obtain ⟨x, hx, rfl⟩ := List.mem_map.mp ha
      simp [mkOrderItem]
    rw [h1, h2, List.nil_append]
  · intro hnd
    have hndls : (ls.map (fun x => x.1.productId)).Nodup := by
      have heq : ls.map (fun x => x.1.productId) =
          (db.itemsOf c.id).map CartItem.productId := by
        rw [← hfst, List.map_map]
        rfl
      rw [heq]
      exact hnd
    constructor
    · intro x hx
      rw [hdb, checkoutTx_eq]
      show (decProducts ls db.products).find? (fun y => y.id == x.1.productId) = _
      rw [show ({ x.2 with stock := x.2.stock - (x.1.quantity : Int) } : Product) =
          { x.2 with stock := x.2.stock + -(x.1.quantity : Int) } by
        rw [Int.sub_eq_add_neg]]
      exact decProducts_find?_mem ls db.products hndls x hx x.2 (hfound x hx)
    · intro pid hpid
      rw [hdb, checkoutTx_eq]
      exact decProducts_find?_of_not_mem ls db.products pid hpid

unseal Rat.mul Rat.add Rat.inv Rat.sub in
/-- Witness for C3 on the spec's scenario: after checking out 3 units
of the price-20 product with stock 5, the cart is empty, order 0 is
`PENDING`/`UNPAID`, its single line freezes price 20 with line
subtotal 60, and the stock drops to 2. -/
theorem c3_checkout_postconditions_witness :
    (createOrder 1 (some 1) scenarioDB).1.itemsOf 1 = [] ∧
    ((createOrder 1 (some 1) scenarioDB).1.findOrder 0).map
        (fun o => (o.status, o.paymentStatus)) =
      some (OrderStatus.PENDING, PaymentStatus.UNPAID) ∧
    (createOrder 1 (some 1) scenarioDB).1.orderItemsOf 0 =
      [{ orderId := 0, productId := 1, quantity := 3, price := 20, subtotal := 60 }] ∧
    (createOrder 1 (some 1) scenarioDB).1.findProduct 1 =
      some { id := 1, name := "Widget", price := 20, stock := 2 } := by
  have hfreshO : ordersFresh scenarioDB := by
    intro o ho
    simp [scenarioDB] at ho
  have hfreshI : orderItemsFresh scenarioDB := by
    intro oi hoi
    simp [scenarioDB] at hoi
  have h : createOrder 1 (some 1) scenarioDB =
      ((createOrder 1 (some 1) scenarioDB).1, CheckoutResult.success 0) := by decide
  obtain ⟨c, ls, hc, hj, hfst, hfound, hcart, ⟨o, hfind, ho1, ho2, ho3, ho4⟩, hlines, hstock⟩ :=
    c3_checkout_postconditions scenarioDB ((createOrder 1 (some 1) scenarioDB).1) 1 1 0
      h hfreshO hfreshI
  have hcc : c = { id := 1, userId := 1 } :=
    Option.some.inj (hc.symm.trans (by decide))
  subst hcc
  have hls : ls = [({ id := 1, cartId := 1, productId := 1, quantity := 3 },
        { id := 1, name := "Widget", price := 20, stock := 5 })] :=
    Option.some.inj (hj.symm.trans (by decide))
  subst hls
  refine ⟨hcart, ?_, ?_, ?_⟩
  · rw [hfind, Option.map_some', ho1, ho2]
  · rw [hlines]
    decide
  · have hx := (hstock (by decide)).1
      (({ id := 1, cartId := 1, productId := 1, quantity := 3 },
        { id := 1, name := "Widget", price := 20, stock := 5 }) : CartItem × Product)
      (by decide)
    rw [hx]
    decide

/-! ### C9: the last-unit race -/

unseal Rat.mul Rat.add Rat.inv Rat.sub in
/-- C9, evaluated at the failing interleaving: the stock check of
`createOrder` runs on a pre-transaction read (it is outside
`prisma.$transaction`) and the decrement inside the transaction is a
plain unconditional `stock: { decrement: quantity }`, not a conditional
compare-and-decrement.  With one unit left and two concurrent checkouts,
read-committed isolation lets both sessions' cart reads and stock checks
see stock 1 before either transaction commits; both checks pass, both
transactions then commit, and the final state holds two orders and a
stock of -1 — violating the claimed exactly-one-succeeds behaviour
(which does hold when the two checkouts run sequentially, last
conjunct). -/
theorem c9_checkout_race :
    joinProducts raceDB (raceDB.itemsOf 1) = some raceLines1 ∧
    joinProducts raceDB (raceDB.itemsOf 2) = some raceLines2 ∧
    firstShort raceLines1 = none ∧
    firstShort raceLines2 = none ∧
    createOrder 1 (some 1) raceDB =
      (checkoutTx 1 1 1 raceLines1 (subtotalOf raceLines1) (taxOf (subtotalOf raceLines1))
        (shippingOf (subtotalOf raceLines1)) (totalOf (subtotalOf raceLines1)) raceDB,
       CheckoutResult.success 0) ∧
    raceInterleaved.stockOf 1 = some (-1) ∧
    (raceInterleaved.findOrder 0).map (fun o => o.userId) = some 1 ∧
    (raceInterleaved.findOrder 1).map (fun o => o.userId) = some 2 ∧
    (createOrder 2 (some 2) (createOrder 1 (some 1) raceDB).1).2 =
      CheckoutResult.insufficientStock "Gadget" 0 := by
  exact ⟨by decide, by decide, by decide, by decide, by decide, by decide, by decide,
    by decide, by decide⟩

/-! ### C8: the stock invariant -/

theorem incStock_map_id (pid : Nat) (q : Int) (ps : List Product) :
    (incStock pid q ps).map Product.id = ps.map Product.id := by
  unfold incStock
  rw [List.map_map]
  apply List.map_congr_left
  intro a _
  show Product.id (if a.id == pid then _ else a) = a.id
  split <;> rfl

theorem incStock_nonneg (pid : Nat) (q : Int) (hq : 0 ≤ q) (ps : List Product)
    (hnn : ∀ p ∈ ps, 0 ≤ p.stock) : ∀ p ∈ incStock pid q ps, 0 ≤ p.stock := by
  intro p hp
  obtain ⟨p0, hp0, rfl⟩ := List.mem_map.mp hp
  by_cases h : p0.id == pid <;> simp [h]
  · exact add_nonneg (hnn p0 hp0) hq
  · exact hnn p0 hp0

theorem releaseStock_nonneg (items : List OrderItem) (ps : List Product)
    (hnn : ∀ p ∈ ps, 0 ≤ p.stock) : ∀ p ∈ releaseStock items ps, 0 ≤ p.stock := by
  induction items generalizing ps with
  | nil => exact hnn
  | cons it rest ih =>
    exact ih _ (incStock_nonneg _ _ (Int.natCast_nonneg _) _ hnn)

theorem releaseStock_map_id (items : List OrderItem) (ps : List Product) :
    (releaseStock items ps).map Product.id = ps.map Product.id := by
  induction items generalizing ps with
  | nil => rfl
  | cons it rest ih =>
    show (releaseStock rest _).map Product.id = _
    rw [ih, incStock_map_id]

theorem decProducts_map_id (ls : List (CartItem × Product)) (ps : List Product) :
    (decProducts ls ps).map Product.id = ps.map Product.id := by
  induction ls generalizing ps with
  | nil => rfl
  | cons x rest ih =>
    show (decProducts rest _).map Product.id = _
    rw [ih, incStock_map_id]

theorem firstShort_none_ok (ls : List (CartItem × Product)) (h : firstShort ls = none) :
    ∀ x ∈ ls, (x.1.quantity : Int) ≤ x.2.stock := by
  induction ls with
  | nil => intro x hx; simp at hx
  | cons hd rest ih =>
    intro x hx
    rw [show firstShort (hd :: rest) =
        (if hd.2.stock < (hd.1.quantity : Int) then some (hd.2.name, hd.2.stock)
         else firstShort rest) from rfl] at h
    by_cases hc : hd.2.stock < (hd.1.quantity : Int)
    · rw [if_pos hc] at h
      exact absurd h (by simp)
    · rw [if_neg hc] at h
      rcases List.mem_cons.mp hx with he | hm
      · subst he
        exact le_of_not_lt hc
      · exact ih h x hm

theorem decProducts_nonneg (ls : List (CartItem × Product)) (ps : List Product)
    (hndLs : (ls.map (fun x => x.1.productId)).Nodup)
    (hndPs : (ps.map Product.id).Nodup)
    (hfound : ∀ x ∈ ls, ps.find? (fun p => p.id == x.1.productId) = some x.2)
    (hok : ∀ x ∈ ls, (x.1.quantity : Int) ≤ x.2.stock)
    (hnn : ∀ p ∈ ps, 0 ≤ p.stock) :
    ∀ p ∈ decProducts ls ps, 0 ≤ p.stock := by
  induction ls generalizing ps with
  | nil => exact hnn
  | cons x rest ih =>
    have hhd : x.1.productId ∉ rest.map (fun y => y.1.productId) := (List.nodup_cons.mp hndLs).1
    have hfx := hfound x (by simp)
    have hx2mem : x.2 ∈ ps := List.mem_of_find?_eq_some hfx
    have hx2id : x.2.id = x.1.productId := by simpa using List.find?_some hfx
    have hokx := hok x (by simp)
    show ∀ p ∈ decProducts rest (incStock x.1.productId (-(x.1.quantity : Int)) ps), 0 ≤ p.stock
    refine ih _ (List.nodup_cons.mp hndLs).2 ?_ ?_ ?_ ?_
    · rw [incStock_map_id]
      exact hndPs
    · intro y hy
      have hne : y.1.productId ≠ x.1.productId := by
        intro he
        exact hhd (he ▸ List.mem_map_of_mem _ hy)
      rw [find?_incStock_ne _ _ _ _ hne]
      exact hfound y (List.mem_cons_of_mem _ hy)
    · intro y hy
      exact hok y (List.mem_cons_of_mem _ hy)
    · intro p hp
      obtain ⟨p0, hp0, rfl⟩ := List.mem_map.mp hp
      by_cases h : p0.id == x.1.productId <;> simp [h]
      · have hp0x : p0 = x.2 := by
          apply List.inj_on_of_nodup_map hndPs hp0 hx2mem
          rw [hx2id]
          exact beq_iff_eq.mp h
        subst hp0x
        omega
      · exact hnn p0 hp0

theorem confirmPayment_inv (u : Nat) (pidOpt : Option String) (ok : Bool) (db : DB)
    (hInv : Inv db) : Inv (confirmPayment u pidOpt ok db).1 := by
  unfold confirmPayment
  split
  · exact hInv
  · split
    · exact hInv
    · split <;> exact hInv

theorem cancelOrder_inv (u oid : Nat) (db : DB) (hInv : Inv db) :
    Inv (cancelOrder u oid db).1 := by
  obtain ⟨h1, h2, h3, h4, h5⟩ := hInv
  unfold cancelOrder
  split
  · exact ⟨h1, h2, h3, h4, h5⟩
  · split
    · exact ⟨h1, h2, h3, h4, h5⟩
    · refine ⟨releaseStock_nonneg _ _ h1, ?_, h3, h4, h5⟩
      rw [releaseStock_map_id]
      exact h2

theorem refundPayment_inv (r : Role) (oid : Nat) (db : DB) (hInv : Inv db) :
    Inv (refundPayment r oid db).1 := by
  obtain ⟨h1, h2, h3, h4, h5⟩ := hInv
  unfold refundPayment
  split
  · exact ⟨h1, h2, h3, h4, h5⟩
  · split
    · exact ⟨h1, h2, h3, h4, h5⟩
    · split
      · exact ⟨h1, h2, h3, h4, h5⟩
      · refine ⟨releaseStock_nonneg _ _ h1, ?_, h3, h4, h5⟩
        rw [releaseStock_map_id]
        exact h2

/-- Removing cart lines (any filter on the cart-item table) preserves
the invariant. -/
theorem filterItems_inv (db : DB) (q : CartItem → Bool) (hInv : Inv db) :
    Inv { db with cartItems := db.cartItems.filter q } := by
  obtain ⟨h1, h2, h3, h4, h5⟩ := hInv
  refine ⟨h1, h2, ?_, ?_, h5⟩
  · intro cid
    have hsub : List.Sublist ((db.cartItems.filter q).filter (fun ci => ci.cartId == cid))
        (db.cartItems.filter (fun ci => ci.cartId == cid)) :=
      (List.filter_sublist _).filter _
    exact List.Nodup.sublist (hsub.map CartItem.productId) (h3 cid)
  · intro ci hci
    exact h4 ci (List.mem_of_mem_filter hci)

theorem clearCart_inv (u : Nat) (db : DB) (hInv : Inv db) :
    Inv (clearCart u db).1 := by
  unfold clearCart
  split
  · exact hInv
  · exact filterItems_inv db _ hInv

theorem removeFromCart_inv (u itemId : Nat) (db : DB) (hInv : Inv db) :
    Inv (removeFromCart u itemId db).1 := by
  unfold removeFromCart
  split
  · exact hInv
  · split
    · exact hInv
    · split
      · exact hInv
      · exact filterItems_inv db _ hInv

theorem filter_map_pred {α : Type} (l : List α) (f : α → α) (p : α → Bool)
    (hp : ∀ a, p (f a) = p a) : (l.map f).filter p = (l.filter p).map f := by
  induction l with
  | nil => rfl
  | cons a t ih =>
    by_cases h : p a
    · simp [List.filter_cons, hp, h, ih]
    · simp [List.filter_cons, hp, h, ih]

/-- Updating quantities (any id/cart/product-preserving map on the
cart-item table) preserves the invariant. -/
theorem mapItems_inv (db : DB) (f : CartItem → CartItem)
    (hcart : ∀ ci, (f ci).cartId = ci.cartId)
    (hprod : ∀ ci, (f ci).productId = ci.productId)
    (hInv : Inv db) :
    Inv { db with cartItems := db.cartItems.map f } := by
  obtain ⟨h1, h2, h3, h4, h5⟩ := hInv
  refine ⟨h1, h2, ?_, ?_, h5⟩
  · intro cid
    show (((db.cartItems.map f).filter (fun ci => ci.cartId == cid)).map CartItem.productId).Nodup
    rw [filter_map_pred db.cartItems f _ (fun a => by rw [hcart])]
    rw [List.map_map]
    have : (List.map (CartItem.productId ∘ f) (db.cartItems.filter fun ci => ci.cartId == cid)) =
        (List.map CartItem.productId (db.cartItems.filter fun ci => ci.cartId == cid)) := by
      apply List.map_congr_left
      intro a _
      exact hprod a
    rw [this]
    exact h3 cid
  · intro ci hci
    obtain ⟨ci0, hci0, rfl⟩ := List.mem_map.mp hci
    obtain ⟨c, hc, hceq⟩ := h4 ci0 hci0
    exact ⟨c, hc, by rw [hceq, hcart]⟩

theorem updateCartItem_inv (u itemId q : Nat) (db : DB) (hInv : Inv db) :
    Inv (updateCartItem u itemId q db).1 := by
  unfold updateCartItem
  split
  · exact hInv
  · split
    · exact hInv
    · split
      · exact hInv
      · split
        · exact hInv
        · split
          · exact hInv
          · split
            · exact hInv
            · exact mapItems_inv db _ (fun ci => by split <;> rfl)
                (fun ci => by split <;> rfl) hInv

theorem getOrCreateCart_cartItems (u : Nat) (db : DB) :
    (getOrCreateCart u db).2.cartItems = db.cartItems := by
  unfold getOrCreateCart
  split <;> rfl

theorem getOrCreateCart_mem (u : Nat) (db : DB) :
    (getOrCreateCart u db).1 ∈ (getOrCreateCart u db).2.carts := by
  unfold getOrCreateCart
  split
  next c hc => exact List.mem_of_find?_eq_some hc
  next => simp

theorem getOrCreateCart_inv (u : Nat) (db : DB) (hInv : Inv db) :
    Inv (getOrCreateCart u db).2 := by
  obtain ⟨h1, h2, h3, h4, h5⟩ := hInv
  unfold getOrCreateCart
  split
  · exact ⟨h1, h2, h3, h4, h5⟩
  · refine ⟨h1, h2, h3, ?_, ?_⟩
    · intro ci hci
      obtain ⟨c, hc, hceq⟩ := h4 ci hci
      exact ⟨c, List.mem_append_left _ hc, hceq⟩
    · intro c hc
      rcases List.mem_append.mp hc with hm | hm
      · exact Nat.lt_succ_of_lt (h5 c hm)
      · simp at hm
        rw [hm]
        exact Nat.lt_succ_self _

theorem addToCart_inv (u : Nat) (pidOpt : Option Nat) (q : Nat) (db : DB) (hInv : Inv db) :
    Inv (addToCart u pidOpt q db).1 := by
  unfold addToCart
  split
  · exact hInv
  next pid =>
    split
    · exact hInv
    · split
      · exact hInv
      next product hprod =>
        split
        · exact hInv
        · split
          next cart db1 hcd =>
            have hinv1 : Inv db1 := by
              have : db1 = (getOrCreateCart u db).2 := by rw [hcd]
              rw [this]
              exact getOrCreateCart_inv u db hInv
            have hmem : cart ∈ db1.carts := by
              have h1 : cart = (getOrCreateCart u db).1 := by rw [hcd]
              have h2 : db1 = (getOrCreateCart u db).2 := by rw [hcd]
              rw [h1, h2]
              exact getOrCreateCart_mem u db
            split
            next existing hex =>
              split
              · exact hinv1
              · exact mapItems_inv db1 _ (fun ci => by split <;> rfl)
                  (fun ci => by split <;> rfl) hinv1
            next hex =>
              obtain ⟨h1, h2, h3, h4, h5⟩ := hinv1
              have hnone := List.find?_eq_none.mp hex
              refine ⟨h1, h2, ?_, ?_, h5⟩
              · intro cid
                show (((db1.cartItems ++
                    [({ id := db1.nextCartItemId, cartId := cart.id,
                        productId := pid, quantity := q } : CartItem)]).filter
                  (fun ci => ci.cartId == cid)).map CartItem.productId).Nodup
                rw [List.filter_append]
                by_cases hcid : cart.id = cid
                · have hone : (List.filter (fun ci => ci.cartId == cid)
                      [({ id := db1.nextCartItemId, cartId := cart.id,
                          productId := pid, quantity := q } : CartItem)]) =
                      [{ id := db1.nextCartItemId, cartId := cart.id,
                         productId := pid, quantity := q }] := by
                    simp [List.filter, hcid]
                  rw [hone, List.map_append]
                  rw [List.nodup_append]
                  refine ⟨h3 cid, by simp, ?_⟩
                  intro a ha hb
                  simp at hb
                  obtain ⟨ci, hcimem, hcieq⟩ := List.mem_map.mp ha
                  have hciItems : ci ∈ db1.cartItems := List.mem_of_mem_filter hcimem
                  have hcicart : ci.cartId = cid := by
                    simpa using List.of_mem_filter hcimem
                  have := hnone ci hciItems
                  simp only [Bool.and_eq_true, beq_iff_eq, not_and] at this
                  exact this (by rw [hcicart, hcid]) (by rw [hcieq, hb])
                · have hb : (cart.id == cid) = false := by
                    simpa using hcid
                  have hzero : (List.filter (fun ci => ci.cartId == cid)
                      [({ id := db1.nextCartItemId, cartId := cart.id,
                          productId := pid, quantity := q } : CartItem)]) = [] := by
                    simp [List.filter, hb]
                  rw [hzero, List.append_nil]
                  exact h3 cid
              · intro ci hci
                rcases List.mem_append.mp hci with hm | hm
                · exact h4 ci hm
                · simp at hm
                  rw [hm]
                  exact ⟨cart, hmem, rfl⟩

theorem createOrder_inv (u : Nat) (aidOpt : Option Nat) (db : DB) (hInv : Inv db) :
    Inv (createOrder u aidOpt db).1 := by
  obtain ⟨h1, h2, h3, h4, h5⟩ := hInv
  unfold createOrder
  split
  · exact ⟨h1, h2, h3, h4, h5⟩
  next aid =>
    split
    · exact ⟨h1, h2, h3, h4, h5⟩
    next c hc =>
      split
      · exact ⟨h1, h2, h3, h4, h5⟩
      next ls hj =>
        split
        · exact ⟨h1, h2, h3, h4, h5⟩
        · split
          · exact ⟨h1, h2, h3, h4, h5⟩
          next a ha =>
            split
            next n avail hfs => exact ⟨h1, h2, h3, h4, h5⟩
            next hfs =>
              show Inv (checkoutTx u aid c.id ls (subtotalOf ls) (taxOf (subtotalOf ls))
                (shippingOf (subtotalOf ls)) (totalOf (subtotalOf ls)) db)
              rw [checkoutTx_eq]
              refine ⟨?_, ?_, ?_, ?_, h5⟩
              · apply decProducts_nonneg ls db.products ?_ h2 ?_
                  (firstShort_none_ok ls hfs) h1
                · have hfst := joinProducts_fst db _ ls hj
                  have heq : ls.map (fun x => x.1.productId) =
                      (db.itemsOf c.id).map CartItem.productId := by
                    rw [← hfst, List.map_map]
                    rfl
                  rw [heq]
                  exact h3 c.id
                · exact joinProducts_found db _ ls hj
              · rw [decProducts_map_id]
                exact h2
              · intro cid
                have hsub : List.Sublist
                    ((db.cartItems.filter (fun ci => ci.cartId != c.id)).filter
                      (fun ci => ci.cartId == cid))
                    (db.cartItems.filter (fun ci => ci.cartId == cid)) :=
                  (List.filter_sublist _).filter _
                exact List.Nodup.sublist (hsub.map CartItem.productId) (h3 cid)
              · intro ci hci
                exact h4 ci (List.mem_of_mem_filter hci)

theorem applyOp_inv (op : Op) (db : DB) (hInv : Inv db) : Inv (applyOp op db) := by
  cases op with
  | addToCart u pid q => exact addToCart_inv u pid q db hInv
  | updateCartItem u i q => exact updateCartItem_inv u i q db hInv
  | removeFromCart u i => exact removeFromCart_inv u i db hInv
  | clearCart u => exact clearCart_inv u db hInv
  | createOrder u aid => exact createOrder_inv u aid db hInv
  | cancelOrder u oid => exact cancelOrder_inv u oid db hInv
  | refundPayment r oid => exact refundPayment_inv r oid db hInv
  | confirmPayment u it ok => exact confirmPayment_inv u it ok db hInv

theorem applyOps_inv (ops : List Op) (db : DB) (hInv : Inv db) :
    Inv (applyOps ops db) := by
  induction ops generalizing db with
  | nil => exact hInv
  | cons op rest ih => exact ih _ (applyOp_inv op db hInv)

/-- C8: from any state satisfying the maintained invariant, no sequence
of the core operations (cart mutations, checkout, cancel, refund,
payment confirmation) drives any product's stock below zero: checkout is
the only decrement and it checks `stock ≥ quantity` per line before the
transaction, while cancel and refund only increment. -/
theorem c8_stockNonneg (ops : List Op) (db : DB) (hInv : Inv db) :
    ∀ p ∈ (applyOps ops db).products, 0 ≤ p.stock :=
  (applyOps_inv ops db hInv).1

unseal Rat.mul Rat.add Rat.inv Rat.sub in
/-- Witness for C8 at a concrete run: the invariant holds in the
scenario state; checkout takes the stock from 5 to 2, cancellation
restores it to 5, and a second checkout on the now-empty cart is
refused, so the stock ends at 5 — nonnegative as the theorem states. -/
theorem c8_stockNonneg_witness :
    (applyOps [Op.createOrder 1 (some 1), Op.cancelOrder 1 0, Op.createOrder 1 (some 1)]
        scenarioDB).products =
      [{ id := 1, name := "Widget", price := 20, stock := 5 }] ∧
    0 ≤ (({ id := 1, name := "Widget", price := 20, stock := 5 } : Product)).stock := by
  have hInv : Inv scenarioDB := by
    refine ⟨by decide, by decide, ?_, by decide, by decide⟩
    intro cid
    by_cases h : (1 : Nat) = cid
    · subst h
      decide
    · have hb : ((1 : Nat) == cid) = false := by simpa using h
      have hnil : scenarioDB.itemsOf cid = [] := by
        simp [DB.itemsOf, scenarioDB, List.filter, hb]
      rw [hnil]
      simp
  refine ⟨by decide, ?_⟩
  exact c8_stockNonneg
    [Op.createOrder 1 (some 1), Op.cancelOrder 1 0, Op.createOrder 1 (some 1)]
    scenarioDB hInv { id := 1, name := "Widget", price := 20, stock := 5 } (by decide)

end ECom
